import Mathlib

/-!
Shallow embedding of the renet client session controller
(`renet/src/client.rs`): the `RenetClient` state machine that drives a
secure handshake layer (renetcode `NetcodeClient`) and a reliable channel
transport (rechannel `RemoteConnection`) over a non-blocking UDP socket.

The two sub-layers, the metrics aggregator (`ClientPacketInfo`) and token
generation live in external crates, so they are modelled abstractly as a
record of operations (`Ops`) over opaque state types; the controller code
itself (`new`, `update`, `send_packets`, `disconnect`, `disconnected`,
`send_to`, accessors) is translated from the source.  The UDP socket is
modelled as an explicit state: a script of receive events, a log of
attempted sends, and a script of send outcomes.
-/

set_option autoImplicit false

/-- Logical time, `std::time::Duration`, modelled as a natural number of
time units (durations are non-negative and add). -/
abbrev Duration := Nat

/-- Socket addresses, abstract. -/
abbrev SocketAddr := Nat

/-- Wire payloads (`&[u8]` / `Vec<u8>` / `Bytes`). -/
abbrev Bytes := List Nat

/-- renetcode constant: size of a private key in bytes. -/
def NETCODE_KEY_BYTES : Nat := 32

/-- renetcode constant: size of the user data blob in bytes. -/
def NETCODE_USER_DATA_BYTES : Nat := 256

/-- A `PacketInfo` metrics sample: `PacketInfo::new(current_time, len)`. -/
structure PacketInfo where
  time : Duration
  length : Nat
deriving DecidableEq, Repr

/-- One outcome of a non-blocking `recv_from` call on the socket. -/
inductive RecvEvent where
  /-- A datagram of `data` arrived from `addr`. -/
  | packet (data : Bytes) (addr : SocketAddr)
  /-- `io::ErrorKind::WouldBlock`: no data currently available. -/
  | wouldBlock
  /-- Any other receive error, by error code. -/
  | ioError (e : Nat)
deriving DecidableEq, Repr

/-- The UDP socket, modelled as explicit state: a script of pending receive
events (an empty script behaves as would-block), a log of every attempted
send, and a script of send outcomes (`none` = success; an exhausted script
means success). -/
structure Socket where
  setNonblockErr : Option Nat := none
  nonblocking : Bool := false
  incoming : List RecvEvent := []
  sent : List (Bytes × SocketAddr) := []
  sendErrs : List (Option Nat) := []
deriving DecidableEq, Repr

/-- `UdpSocket::send_to`: logs the attempted send, consumes one entry of the
send-outcome script, and returns the number of bytes sent or an error. -/
def Socket.sendTo (s : Socket) (packet : Bytes) (address : SocketAddr) :
    Socket × Except Nat Nat :=
  let s' : Socket :=
    { s with sent := s.sent ++ [(packet, address)], sendErrs := s.sendErrs.tail }
  match s.sendErrs.head? with
  | some (some e) => (s', .error e)
  | _ => (s', .ok packet.length)

/-- The external collaborators of the session controller, as a record of
operations over opaque state types: `σn` is the renetcode `NetcodeClient`
state, `σr` the rechannel `RemoteConnection` state, `σm` the
`ClientPacketInfo` metrics state, `Tok` the `ConnectToken` type, `Cfg` the
`RenetConnectionConfig` type, `CCfg` the rechannel `ConnectionConfig` type,
and `Flt` the type of floating-point readings (smoothing factor, kbps, rtt,
packet loss), kept abstract.  Disconnect reasons and error values of the
external crates are abstract codes (`Nat`). -/
structure Ops (σn σr σm Tok Cfg CCfg Flt : Type) where
  netcode_new : Duration → Tok → σn
  n_client_id : σn → Nat
  n_connected : σn → Bool
  n_disconnected : σn → Option Nat
  n_server_addr : σn → SocketAddr
  n_disconnect : σn → σn × Except Nat (SocketAddr × Bytes)
  n_process_packet : σn → Bytes → σn × Option Bytes
  n_update : σn → Duration → σn × Option (Bytes × SocketAddr)
  n_generate_payload_packet : σn → Bytes → σn × Except Nat (SocketAddr × Bytes)
  token_generate : Duration → Nat → Nat → Nat → Nat → List SocketAddr →
    Option Bytes → List Nat → Except Nat Tok
  remote_new : Duration → CCfg → σr
  r_disconnected : σr → Option Nat
  r_advance_time : σr → Duration → σr
  r_process_packet : σr → Bytes → σr × Except Nat Unit
  r_update : σr → σr × Except Nat Unit
  r_get_packets_to_send : σr → σr × Except Nat (List Bytes)
  r_receive_message : σr → Nat → σr × Option Bytes
  r_send_message : σr → Nat → Bytes → σr
  r_can_send_message : σr → Nat → Bool
  r_rtt : σr → Flt
  r_packet_loss : σr → Flt
  to_connection_config : Cfg → CCfg
  cfg_smoothing : Cfg → Flt
  m_new : Flt → σm
  m_add_packet_sent : σm → PacketInfo → σm
  m_add_packet_received : σm → PacketInfo → σm
  m_update_metrics : σm → σm
  m_sent_kbps : σm → Flt
  m_received_kbps : σm → Flt

/-- renet `RenetError`: IO errors, renetcode errors, rechannel errors. -/
inductive NetcodeError where
  | Disconnected (reason : Nat)
  | Other (e : Nat)
deriving DecidableEq, Repr

/-- rechannel `RechannelError`, as seen through renet. -/
inductive RechannelError where
  | ClientDisconnected (reason : Nat)
  | Other (e : Nat)
deriving DecidableEq, Repr

/-- renet `RenetError`. -/
inductive RenetError where
  | ioErr (e : Nat)
  | Netcode (e : NetcodeError)
  | Rechannel (e : RechannelError)
deriving DecidableEq, Repr

/-- renet `DisconnectionReason`: the merge of the two sub-layers' reasons,
with one injection per `From` impl. -/
inductive DisconnectionReason where
  | fromRechannel (reason : Nat)
  | fromNetcode (reason : Nat)
deriving DecidableEq, Repr

/-- `ClientAuthentication`: secure (pre-issued token) or unsecure
(token synthesized at construction). -/
inductive ClientAuthentication (Tok : Type) where
  | Secure (connect_token : Tok)
  | Unsecure (protocol_id : Nat) (client_id : Nat) (server_addr : SocketAddr)
      (user_data : Option Bytes)

/-- `NetworkInfo` snapshot. -/
structure NetworkInfo (Flt : Type) where
  sent_kbps : Flt
  received_kbps : Flt
  rtt : Flt
  packet_loss : Flt

/-- `RenetClient` state.  The fixed receive buffer is not modelled (receive
events carry their data directly); the socket holds the I/O state. -/
structure RenetClient (σn σr σm : Type) where
  current_time : Duration
  netcode_client : σn
  socket : Socket
  reliable_connection : σr
  client_packet_info : σm

section Model

variable {σn σr σm Tok Cfg CCfg Flt : Type}

/-- The free function `send_to` at the bottom of `client.rs`: records the
sent-packet metrics sample, then attempts the socket send. -/
def send_to (O : Ops σn σr σm Tok Cfg CCfg Flt) (current_time : Duration)
    (socket : Socket) (client_packet_info : σm) (packet : Bytes)
    (address : SocketAddr) : σm × Socket × Except Nat Nat :=
  let packet_info : PacketInfo := ⟨current_time, packet.length⟩
  let client_packet_info := O.m_add_packet_sent client_packet_info packet_info
  let (socket, res) := socket.sendTo packet address
  (client_packet_info, socket, res)

/-- `RenetClient::new`.  Sets the socket non-blocking, builds the reliable
connection, resolves the authentication mode into a connect token
(synthesizing one for `Unsecure` with expire 300, timeout 15, the single
server address and the all-zero private key), then assembles the client. -/
def RenetClient.new (O : Ops σn σr σm Tok Cfg CCfg Flt) (current_time : Duration)
    (socket : Socket) (config : Cfg) (authentication : ClientAuthentication Tok) :
    Except RenetError (RenetClient σn σr σm) :=
  match socket.setNonblockErr with
  | some e => .error (.ioErr e)
  | none =>
    let socket : Socket := { socket with nonblocking := true }
    let reliable_connection := O.remote_new current_time (O.to_connection_config config)
    match (match authentication with
      | .Unsecure protocol_id client_id server_addr user_data =>
          O.token_generate current_time protocol_id 300 client_id 15 [server_addr]
            user_data (List.replicate NETCODE_KEY_BYTES 0)
      | .Secure connect_token => .ok connect_token) with
    | .error e => .error (.Netcode (.Other e))
    | .ok connect_token =>
      let netcode_client := O.netcode_new current_time connect_token
      let client_packet_info := O.m_new (O.cfg_smoothing config)
      .ok { current_time, netcode_client, socket, reliable_connection, client_packet_info }

/-- `RenetClient::client_id`. -/
def RenetClient.client_id (O : Ops σn σr σm Tok Cfg CCfg Flt)
    (c : RenetClient σn σr σm) : Nat :=
  O.n_client_id c.netcode_client

/-- `RenetClient::is_connected`. -/
def RenetClient.is_connected (O : Ops σn σr σm Tok Cfg CCfg Flt)
    (c : RenetClient σn σr σm) : Bool :=
  O.n_connected c.netcode_client

/-- `RenetClient::disconnected`: the reliable-transport reason first, then
the handshake-layer reason. -/
def RenetClient.disconnected (O : Ops σn σr σm Tok Cfg CCfg Flt)
    (c : RenetClient σn σr σm) : Option DisconnectionReason :=
  match O.r_disconnected c.reliable_connection with
  | some reason => some (.fromRechannel reason)
  | none =>
    match O.n_disconnected c.netcode_client with
    | some reason => some (.fromNetcode reason)
    | none => none

/-- `RenetClient::disconnect`: asks the handshake layer for a disconnect
payload; on success sends it once best-effort (a send failure is only
logged), on failure only logs.  Never fails and never touches the reliable
connection. -/
def RenetClient.disconnect (O : Ops σn σr σm Tok Cfg CCfg Flt)
    (c : RenetClient σn σr σm) : RenetClient σn σr σm :=
  match O.n_disconnect c.netcode_client with
  | (n, .ok (addr, payload)) =>
    let (m, s, _res) := send_to O c.current_time c.socket c.client_packet_info payload addr
    { c with netcode_client := n, client_packet_info := m, socket := s }
  | (n, .error _e) => { c with netcode_client := n }

/-- `RenetClient::receive_message`. -/
def RenetClient.receive_message (O : Ops σn σr σm Tok Cfg CCfg Flt)
    (c : RenetClient σn σr σm) (channel_id : Nat) :
    RenetClient σn σr σm × Option Bytes :=
  let (r, msg) := O.r_receive_message c.reliable_connection channel_id
  ({ c with reliable_connection := r }, msg)

/-- `RenetClient::send_message`. -/
def RenetClient.send_message (O : Ops σn σr σm Tok Cfg CCfg Flt)
    (c : RenetClient σn σr σm) (channel_id : Nat) (message : Bytes) :
    RenetClient σn σr σm :=
  { c with reliable_connection := O.r_send_message c.reliable_connection channel_id message }

/-- `RenetClient::can_send_message`. -/
def RenetClient.can_send_message (O : Ops σn σr σm Tok Cfg CCfg Flt)
    (c : RenetClient σn σr σm) (channel_id : Nat) : Bool :=
  O.r_can_send_message c.reliable_connection channel_id

/-- `RenetClient::network_info`. -/
def RenetClient.network_info (O : Ops σn σr σm Tok Cfg CCfg Flt)
    (c : RenetClient σn σr σm) : NetworkInfo Flt :=
  { sent_kbps := O.m_sent_kbps c.client_packet_info
    received_kbps := O.m_received_kbps c.client_packet_info
    rtt := O.r_rtt c.reliable_connection
    packet_loss := O.r_packet_loss c.reliable_connection }

/-- The loop body of `RenetClient::send_packets`: wrap each packet through
the handshake layer and send it; the first failure aborts the flush. -/
def sendPacketsLoop (O : Ops σn σr σm Tok Cfg CCfg Flt) :
    List Bytes → RenetClient σn σr σm →
    RenetClient σn σr σm × Except RenetError Unit
  | [], c => (c, .ok ())
  | packet :: rest, c =>
    match O.n_generate_payload_packet c.netcode_client packet with
    | (n, .error e) => ({ c with netcode_client := n }, .error (.Netcode (.Other e)))
    | (n, .ok (addr, payload)) =>
      let c := { c with netcode_client := n }
      let (m, s, res) := send_to O c.current_time c.socket c.client_packet_info payload addr
      let c := { c with client_packet_info := m, socket := s }
      match res with
      | .error e => (c, .error (.ioErr e))
      | .ok _ => sendPacketsLoop O rest c

/-- `RenetClient::send_packets`: only has effect while the handshake layer
reports connected; drains the reliable transport's ready packets and sends
each through the handshake layer. -/
def RenetClient.send_packets (O : Ops σn σr σm Tok Cfg CCfg Flt)
    (c : RenetClient σn σr σm) : RenetClient σn σr σm × Except RenetError Unit :=
  if O.n_connected c.netcode_client then
    match O.r_get_packets_to_send c.reliable_connection with
    | (r, .error e) =>
      ({ c with reliable_connection := r }, .error (.Rechannel (.Other e)))
    | (r, .ok packets) => sendPacketsLoop O packets { c with reliable_connection := r }
  else (c, .ok ())

/-- The receive loop of `RenetClient::update`, recursing on the socket's
receive-event script.  Returns the updated client, the unconsumed events,
and the loop's outcome. -/
def recvLoopAux (O : Ops σn σr σm Tok Cfg CCfg Flt) :
    List RecvEvent → RenetClient σn σr σm →
    RenetClient σn σr σm × List RecvEvent × Except RenetError Unit
  | [], c => (c, [], .ok ())
  | .wouldBlock :: rest, c => (c, rest, .ok ())
  | .ioError e :: rest, c => (c, rest, .error (.ioErr e))
  | .packet data addr :: rest, c =>
    if addr ≠ O.n_server_addr c.netcode_client then
      recvLoopAux O rest c
    else
      let packet_info : PacketInfo := ⟨c.current_time, data.length⟩
      let m := O.m_add_packet_received c.client_packet_info packet_info
      let (n, payload) := O.n_process_packet c.netcode_client data
      let c := { c with client_packet_info := m, netcode_client := n }
      match payload with
      | none => recvLoopAux O rest c
      | some payload =>
        let (r, res) := O.r_process_packet c.reliable_connection payload
        let c := { c with reliable_connection := r }
        match res with
        | .error e => (c, rest, .error (.Rechannel (.Other e)))
        | .ok _ => recvLoopAux O rest c

/-- The first two statements of `RenetClient::update`: advance the logical
time and the reliable transport's clock by `duration`. -/
def tickStart (O : Ops σn σr σm Tok Cfg CCfg Flt) (c : RenetClient σn σr σm)
    (duration : Duration) : RenetClient σn σr σm :=
  { c with current_time := c.current_time + duration
           reliable_connection := O.r_advance_time c.reliable_connection duration }

/-- `RenetClient::update`: advance time, fail fast on a terminal reason of
either sub-layer (notifying the peer when the reliable transport is the one
disconnected), drain the socket, run both layers' maintenance, send any
keepalive, and recompute metrics. -/
def RenetClient.update (O : Ops σn σr σm Tok Cfg CCfg Flt)
    (c : RenetClient σn σr σm) (duration : Duration) :
    RenetClient σn σr σm × Except RenetError Unit :=
  let c := tickStart O c duration
  match O.n_disconnected c.netcode_client with
  | some reason => (c, .error (.Netcode (.Disconnected reason)))
  | none =>
  match O.r_disconnected c.reliable_connection with
  | some reason =>
    let c := RenetClient.disconnect O c
    (c, .error (.Rechannel (.ClientDisconnected reason)))
  | none =>
  match recvLoopAux O c.socket.incoming c with
  | (c, rest, res) =>
    let c := { c with socket := { c.socket with incoming := rest } }
    match res with
    | .error e => (c, .error e)
    | .ok _ =>
      let (r, rres) := O.r_update c.reliable_connection
      let c := { c with reliable_connection := r }
      match rres with
      | .error e => (c, .error (.Rechannel (.Other e)))
      | .ok _ =>
        let (n, out) := O.n_update c.netcode_client duration
        let c := { c with netcode_client := n }
        match out with
        | some (packet, addr) =>
          let (m, s, sres) := send_to O c.current_time c.socket c.client_packet_info packet addr
          let c := { c with client_packet_info := m, socket := s }
          match sres with
          | .error e => (c, .error (.ioErr e))
          | .ok _ =>
            ({ c with client_packet_info := O.m_update_metrics c.client_packet_info }, .ok ())
        | none =>
          ({ c with client_packet_info := O.m_update_metrics c.client_packet_info }, .ok ())

/-- A sequence of `update` calls, collecting each call's result (the caller
keeps driving the same client value, as in Rust). -/
def runUpdates (O : Ops σn σr σm Tok Cfg CCfg Flt) :
    List Duration → RenetClient σn σr σm →
    RenetClient σn σr σm × List (Except RenetError Unit)
  | [], c => (c, [])
  | d :: ds, c =>
    let (c, r) := RenetClient.update O c d
    let (c', rs) := runUpdates O ds c
    (c', r :: rs)

end Model

/-! ### A concrete executable instantiation of the external layers

Used to evaluate the controller on concrete inputs: each opaque layer state
is a small record whose fields script the layer's answers, and the metrics
state logs the samples it is given. -/

/-- Concrete `NetcodeClient` state for evaluation. -/
structure TN where
  cid : Nat := 0
  conn : Bool := false
  reason : Option Nat := none
  saddr : SocketAddr := 0
  upd : Option (Bytes × SocketAddr) := none
  disc : Except Nat (SocketAddr × Bytes) := .error 0
  proc : Option Bytes := none
  plog : List Bytes := []

/-- Concrete `RemoteConnection` state for evaluation. -/
structure TR where
  reason : Option Nat := none
  clock : Nat := 0
  pkts : List Bytes := []
  procErr : Option Nat := none
  updErr : Option Nat := none

/-- Concrete `ClientPacketInfo` state for evaluation: logs of the samples. -/
structure TMet where
  sentSamples : List PacketInfo := []
  recvSamples : List PacketInfo := []
  metricsTicks : Nat := 0

/-- The concrete operations record over the evaluation states. -/
def testOps : Ops TN TR TMet Nat Nat Nat Nat where
  netcode_new := fun _t tok => { cid := tok }
  n_client_id := TN.cid
  n_connected := TN.conn
  n_disconnected := TN.reason
  n_server_addr := TN.saddr
  n_disconnect := fun st => ({ st with reason := some 77 }, st.disc)
  n_process_packet := fun st data => ({ st with plog := st.plog ++ [data] }, st.proc)
  n_update := fun st _d => (st, st.upd)
  n_generate_payload_packet := fun st p => (st, .ok (st.saddr, p))
  token_generate := fun _t pid _exp cid _tout addrs _ud _key =>
    if addrs.isEmpty then .error 1 else .ok (pid * 1000 + cid)
  remote_new := fun t _cfg => { clock := t }
  r_disconnected := TR.reason
  r_advance_time := fun st d => { st with clock := st.clock + d }
  r_process_packet := fun st _p =>
    (st, match st.procErr with | some e => .error e | none => .ok ())
  r_update := fun st =>
    (st, match st.updErr with | some e => .error e | none => .ok ())
  r_get_packets_to_send := fun st => ({ st with pkts := [] }, .ok st.pkts)
  r_receive_message := fun st _ch => (st, none)
  r_send_message := fun st _ch _m => st
  r_can_send_message := fun _st _ch => true
  r_rtt := fun _ => 0
  r_packet_loss := fun _ => 0
  to_connection_config := id
  cfg_smoothing := id
  m_new := fun _ => {}
  m_add_packet_sent := fun m p => { m with sentSamples := m.sentSamples ++ [p] }
  m_add_packet_received := fun m p => { m with recvSamples := m.recvSamples ++ [p] }
  m_update_metrics := fun m => { m with metricsTicks := m.metricsTicks + 1 }
  m_sent_kbps := fun _ => 0
  m_received_kbps := fun _ => 0

/-- A baseline concrete client for evaluation. -/
def testClient : RenetClient TN TR TMet where
  current_time := 0
  netcode_client := {}
  socket := {}
  reliable_connection := {}
  client_packet_info := {}

/-! ### Helper lemmas -/

section Lemmas

variable {σn σr σm Tok Cfg CCfg Flt : Type}

/-- The socket state produced by a send attempt, independent of outcome. -/
theorem sendTo_fst (s : Socket) (packet : Bytes) (address : SocketAddr) :
    (s.sendTo packet address).1 =
      { s with sent := s.sent ++ [(packet, address)], sendErrs := s.sendErrs.tail } := by
  unfold Socket.sendTo
  split <;> rfl

/-- Unfolded shape of the `send_to` helper. -/
theorem send_to_eq (O : Ops σn σr σm Tok Cfg CCfg Flt) (t : Duration) (s : Socket)
    (m : σm) (packet : Bytes) (address : SocketAddr) :
    send_to O t s m packet address =
      (O.m_add_packet_sent m ⟨t, packet.length⟩, (s.sendTo packet address).1,
        (s.sendTo packet address).2) := by
  rcases hst : s.sendTo packet address with ⟨s2, r⟩
  unfold send_to
  rw [hst]

end Lemmas

/-! ### Claims -/

section Claims

variable {σn σr σm Tok Cfg CCfg Flt : Type}

/-- C3: `disconnected()` returns the reliable-transport layer's reason when
that layer has one, otherwise the handshake layer's reason when it has one,
otherwise none; the reliable-transport reason takes precedence whenever both
layers have one. -/
theorem disconnected_precedence (O : Ops σn σr σm Tok Cfg CCfg Flt)
    (c : RenetClient σn σr σm) :
    RenetClient.disconnected O c =
      (match O.r_disconnected c.reliable_connection,
             O.n_disconnected c.netcode_client with
       | some r, _ => some (.fromRechannel r)
       | none, some r => some (.fromNetcode r)
       | none, none => none) := by
  cases hr : O.r_disconnected c.reliable_connection <;>
    cases hn : O.n_disconnected c.netcode_client <;>
      simp [RenetClient.disconnected, hr, hn]

/-- C5: while the handshake layer does not report a completed handshake,
`send_packets` performs no socket sends, records no metrics samples, leaves
the whole session state unchanged and returns success. -/
theorem send_packets_noop_when_unconnected (O : Ops σn σr σm Tok Cfg CCfg Flt)
    (c : RenetClient σn σr σm) (h : O.n_connected c.netcode_client = false) :
    RenetClient.send_packets O c = (c, .ok ()) := by
  simp [RenetClient.send_packets, h]

/-- Witness for C5 at a concrete unconnected client. -/
theorem send_packets_noop_when_unconnected_witness :
    testOps.n_connected testClient.netcode_client = false ∧
      RenetClient.send_packets testOps testClient = (testClient, .ok ()) :=
  ⟨rfl, send_packets_noop_when_unconnected testOps testClient rfl⟩

/-- C6: a datagram received from an address different from the peer address
recorded by the handshake layer is discarded: the receive loop continues on
the remaining events with the session state untouched, so the datagram is
never passed to handshake decryption or to the reliable transport and
neither connectivity status changes. -/
theorem recv_loop_discards_foreign_address (O : Ops σn σr σm Tok Cfg CCfg Flt)
    (evs : List RecvEvent) (c : RenetClient σn σr σm) (data : Bytes)
    (addr : SocketAddr) (h : addr ≠ O.n_server_addr c.netcode_client) :
    recvLoopAux O (.packet data addr :: evs) c = recvLoopAux O evs c := by
  simp only [recvLoopAux]
  rw [if_pos h]

/-- Witness for C6 at a concrete foreign-address datagram. -/
theorem recv_loop_discards_foreign_address_witness :
    (5 : SocketAddr) ≠ testOps.n_server_addr testClient.netcode_client ∧
      recvLoopAux testOps [.packet [1, 2] 5] testClient =
        recvLoopAux testOps [] testClient :=
  ⟨by decide,
    recv_loop_discards_foreign_address testOps [] testClient [1, 2] 5 (by decide)⟩

/-- C9: `disconnect()` is infallible to the caller (its return type carries
no error), never touches the reliable transport or the logical time, never
consumes receive events, and attempts exactly one best-effort send when the
handshake layer produces a disconnect payload and none when it does not; a
failed send still returns normally. -/
theorem disconnect_infallible_frame (O : Ops σn σr σm Tok Cfg CCfg Flt)
    (c : RenetClient σn σr σm) :
    (RenetClient.disconnect O c).reliable_connection = c.reliable_connection
    ∧ (RenetClient.disconnect O c).current_time = c.current_time
    ∧ (RenetClient.disconnect O c).socket.sent.length =
        c.socket.sent.length +
          (if (O.n_disconnect c.netcode_client).2.isOk then 1 else 0)
    ∧ (RenetClient.disconnect O c).socket.incoming = c.socket.incoming := by
  rcases hd : O.n_disconnect c.netcode_client with ⟨n, e | ⟨addr, payload⟩⟩
  · simp [RenetClient.disconnect, hd, Except.isOk, Except.toBool]
  · simp [RenetClient.disconnect, hd, send_to_eq, sendTo_fst, Except.isOk, Except.toBool]

/-- C10: the internal send helper records the sent-packet metrics sample
(current time, payload length) unconditionally — in particular even when the
socket send fails — and logs exactly the attempted datagram. -/
theorem send_to_records_metrics_before_send (O : Ops σn σr σm Tok Cfg CCfg Flt)
    (t : Duration) (s : Socket) (m : σm) (packet : Bytes) (address : SocketAddr) :
    (send_to O t s m packet address).1 = O.m_add_packet_sent m ⟨t, packet.length⟩
    ∧ (send_to O t s m packet address).2.1.sent = s.sent ++ [(packet, address)] := by
  simp [send_to_eq, sendTo_fst]

end Claims

/-! ### Frame and time lemmas -/

section FrameLemmas

variable {σn σr σm Tok Cfg CCfg Flt : Type}

/-- The receive loop never changes the logical time or the socket state. -/
theorem recvLoopAux_time_socket (O : Ops σn σr σm Tok Cfg CCfg Flt)
    (evs : List RecvEvent) (c : RenetClient σn σr σm) :
    (recvLoopAux O evs c).1.current_time = c.current_time ∧
      (recvLoopAux O evs c).1.socket = c.socket := by
  induction evs generalizing c with
  | nil => exact ⟨rfl, rfl⟩
  | cons ev rest ih =>
    cases ev with
    | wouldBlock => exact ⟨rfl, rfl⟩
    | ioError e => exact ⟨rfl, rfl⟩
    | packet data addr =>
      simp only [recvLoopAux]
      split
      · exact ih c
      · rcases hnp : O.n_process_packet c.netcode_client data with ⟨n, _ | payload⟩
        · simp only [hnp]
          exact ih _
        · simp only [hnp]
          rcases hrp : O.r_process_packet c.reliable_connection payload with ⟨r, e | u⟩
          · simp [hrp]
          · simp only [hrp]
            exact ih _

/-- `disconnect` never changes the time, the reliable transport, or the
pending receive events, and attempts at most one send. -/
theorem disconnect_frame (O : Ops σn σr σm Tok Cfg CCfg Flt)
    (c : RenetClient σn σr σm) :
    (RenetClient.disconnect O c).current_time = c.current_time
    ∧ (RenetClient.disconnect O c).reliable_connection = c.reliable_connection
    ∧ (RenetClient.disconnect O c).socket.incoming = c.socket.incoming
    ∧ (RenetClient.disconnect O c).socket.sent.length ≤ c.socket.sent.length + 1 := by
  rcases hd : O.n_disconnect c.netcode_client with ⟨n, e | ⟨addr, payload⟩⟩
  · simp [RenetClient.disconnect, hd]
  · simp [RenetClient.disconnect, hd, send_to_eq, sendTo_fst]

/-- `update` advances the logical time by exactly the supplied duration. -/
theorem update_time (O : Ops σn σr σm Tok Cfg CCfg Flt)
    (c : RenetClient σn σr σm) (d : Duration) :
    (RenetClient.update O c d).1.current_time = c.current_time + d := by
  unfold RenetClient.update
  cases hn : O.n_disconnected (tickStart O c d).netcode_client with
  | some r => simp only [hn]; rfl
  | none =>
    simp only [hn]
    cases hr : O.r_disconnected (tickStart O c d).reliable_connection with
    | some r =>
      simp only [hr]
      exact (disconnect_frame O _).1
    | none =>
      simp only [hr]
      rcases hrl : recvLoopAux O (tickStart O c d).socket.incoming (tickStart O c d)
        with ⟨c1, rest, res⟩
      have htime : c1.current_time = c.current_time + d := by
        have h := (recvLoopAux_time_socket O (tickStart O c d).socket.incoming
          (tickStart O c d)).1
        rw [hrl] at h
        exact h
      simp only [hrl]
      cases res with
      | error e => exact htime
      | ok u =>
        rcases hru : O.r_update c1.reliable_connection with ⟨r2, rres⟩
        simp only [hru]
        cases rres with
        | error e => exact htime
        | ok u2 =>
          rcases hnu : O.n_update c1.netcode_client d with ⟨n2, out⟩
          simp only [hnu]
          cases out with
          | none => exact htime
          | some pa =>
            rcases pa with ⟨packet, addr⟩
            simp only [send_to_eq]
            rcases hst : (Socket.sendTo _ packet addr).2 with e | u3
            · simp only [hst]
              exact htime
            · simp only [hst]
              exact htime

/-- Over a sequence of `update` calls, the elapsed logical time is the sum
of the durations passed. -/
theorem runUpdates_time (O : Ops σn σr σm Tok Cfg CCfg Flt) (ds : List Duration) :
    ∀ c : RenetClient σn σr σm,
      (runUpdates O ds c).1.current_time = c.current_time + ds.sum := by
  induction ds with
  | nil => intro c; simp [runUpdates]
  | cons d ds ih =>
    intro c
    simp only [runUpdates]
    rcases h1 : RenetClient.update O c d with ⟨c2, r⟩
    simp only [h1]
    rcases h2 : runUpdates O ds c2 with ⟨c3, rs⟩
    simp only [h2]
    have ht2 : c2.current_time = c.current_time + d := by
      have h := update_time O c d
      rw [h1] at h
      exact h
    have ht3 : c3.current_time = c2.current_time + ds.sum := by
      have h := ih c2
      rw [h2] at h
      exact h
    rw [ht3, ht2, List.sum_cons]
    exact Nat.add_assoc _ _ _

/-- The `send_packets` flush loop never changes the logical time or the
reliable transport. -/
theorem sendPacketsLoop_time (O : Ops σn σr σm Tok Cfg CCfg Flt) (pkts : List Bytes) :
    ∀ c : RenetClient σn σr σm,
      (sendPacketsLoop O pkts c).1.current_time = c.current_time ∧
        (sendPacketsLoop O pkts c).1.reliable_connection = c.reliable_connection := by
  induction pkts with
  | nil => intro c; exact ⟨rfl, rfl⟩
  | cons packet rest ih =>
    intro c
    simp only [sendPacketsLoop]
    rcases hg : O.n_generate_payload_packet c.netcode_client packet with ⟨n, e | ⟨addr, payload⟩⟩
    · simp [hg]
    · simp only [hg, send_to_eq]
      rcases hst : (Socket.sendTo c.socket payload addr).2 with e | u
      · simp [hst]
      · simp only [hst]
        exact ih _

/-- `send_packets` never changes the logical time. -/
theorem send_packets_time (O : Ops σn σr σm Tok Cfg CCfg Flt)
    (c : RenetClient σn σr σm) :
    (RenetClient.send_packets O c).1.current_time = c.current_time := by
  unfold RenetClient.send_packets
  split
  · rcases hg : O.r_get_packets_to_send c.reliable_connection with ⟨r, e | packets⟩
    · simp [hg]
    · simp only [hg]
      exact (sendPacketsLoop_time O packets _).1
  · rfl

/-- The receive loop changes the reliable transport only through
`process_packet` calls, so any measure those calls preserve is preserved. -/
theorem recvLoopAux_reliable_clk (O : Ops σn σr σm Tok Cfg CCfg Flt)
    (clk : σr → Nat) (Hp : ∀ st p, clk (O.r_process_packet st p).1 = clk st)
    (evs : List RecvEvent) (c : RenetClient σn σr σm) :
    clk (recvLoopAux O evs c).1.reliable_connection = clk c.reliable_connection := by
  induction evs generalizing c with
  | nil => rfl
  | cons ev rest ih =>
    cases ev with
    | wouldBlock => rfl
    | ioError e => rfl
    | packet data addr =>
      simp only [recvLoopAux]
      split
      · exact ih c
      · rcases hnp : O.n_process_packet c.netcode_client data with ⟨n, _ | payload⟩
        · simp only [hnp]
          exact ih _
        · simp only [hnp]
          rcases hrp : O.r_process_packet c.reliable_connection payload with ⟨r, e | u⟩
          · simp only [hrp]
            have h := Hp c.reliable_connection payload
            rw [hrp] at h
            exact h
          · simp only [hrp]
            refine (ih _).trans ?_
            have h := Hp c.reliable_connection payload
            rw [hrp] at h
            exact h

/-- `update` advances the reliable transport's clock by exactly the supplied
duration, for any clock measure that `advance_time` advances and the other
reliable-transport operations preserve. -/
theorem update_reliable_clk (O : Ops σn σr σm Tok Cfg CCfg Flt)
    (clk : σr → Nat)
    (Ha : ∀ st (d' : Duration), clk (O.r_advance_time st d') = clk st + d')
    (Hp : ∀ st p, clk (O.r_process_packet st p).1 = clk st)
    (Hu : ∀ st, clk (O.r_update st).1 = clk st)
    (c : RenetClient σn σr σm) (d : Duration) :
    clk (RenetClient.update O c d).1.reliable_connection =
      clk c.reliable_connection + d := by
  have hts : clk (tickStart O c d).reliable_connection = clk c.reliable_connection + d :=
    Ha c.reliable_connection d
  unfold RenetClient.update
  cases hn : O.n_disconnected (tickStart O c d).netcode_client with
  | some r => simp only [hn]; exact hts
  | none =>
    simp only [hn]
    cases hr : O.r_disconnected (tickStart O c d).reliable_connection with
    | some r =>
      simp only [hr]
      exact ((disconnect_frame O _).2.1.symm ▸ hts)
    | none =>
      simp only [hr]
      rcases hrl : recvLoopAux O (tickStart O c d).socket.incoming (tickStart O c d)
        with ⟨c1, rest, res⟩
      have hclk1 : clk c1.reliable_connection = clk c.reliable_connection + d := by
        have h := recvLoopAux_reliable_clk O clk Hp (tickStart O c d).socket.incoming
          (tickStart O c d)
        rw [hrl] at h
        exact h.trans hts
      simp only [hrl]
      cases res with
      | error e => exact hclk1
      | ok u =>
        rcases hru : O.r_update c1.reliable_connection with ⟨r2, rres⟩
        have hclk2 : clk r2 = clk c.reliable_connection + d := by
          have h := Hu c1.reliable_connection
          rw [hru] at h
          exact h.trans hclk1
        simp only [hru]
        cases rres with
        | error e => exact hclk2
        | ok u2 =>
          rcases hnu : O.n_update c1.netcode_client d with ⟨n2, out⟩
          simp only [hnu]
          cases out with
          | none => exact hclk2
          | some pa =>
            rcases pa with ⟨packet, addr⟩
            simp only [send_to_eq]
            rcases hst : (Socket.sendTo _ packet addr).2 with e | u3
            · simp only [hst]
              exact hclk2
            · simp only [hst]
              exact hclk2

end FrameLemmas

section Claims2

variable {σn σr σm Tok Cfg CCfg Flt : Type}

/-- C4: the session's logical time is monotonically non-decreasing and is
advanced only by `update`, by exactly the supplied duration, with the
reliable transport's clock advanced by the same amount (for any clock
measure that `advance_time` advances by the duration and the other
reliable-transport operations preserve); over any sequence of updates the
elapsed logical time is the sum of the durations passed, and
`send_packets`, `disconnect`, `send_message` and `receive_message` leave
the logical time unchanged. -/
theorem logical_time_only_update (O : Ops σn σr σm Tok Cfg CCfg Flt)
    (clk : σr → Nat)
    (Ha : ∀ st (d' : Duration), clk (O.r_advance_time st d') = clk st + d')
    (Hp : ∀ st p, clk (O.r_process_packet st p).1 = clk st)
    (Hu : ∀ st, clk (O.r_update st).1 = clk st)
    (c : RenetClient σn σr σm) (d : Duration) (ds : List Duration)
    (ch : Nat) (msg : Bytes) :
    (RenetClient.update O c d).1.current_time = c.current_time + d
    ∧ c.current_time ≤ (RenetClient.update O c d).1.current_time
    ∧ clk (RenetClient.update O c d).1.reliable_connection =
        clk c.reliable_connection + d
    ∧ (runUpdates O ds c).1.current_time = c.current_time + ds.sum
    ∧ (RenetClient.send_packets O c).1.current_time = c.current_time
    ∧ (RenetClient.disconnect O c).current_time = c.current_time
    ∧ (RenetClient.send_message O c ch msg).current_time = c.current_time
    ∧ (RenetClient.receive_message O c ch).1.current_time = c.current_time := by
  refine ⟨update_time O c d, ?_, update_reliable_clk O clk Ha Hp Hu c d,
    runUpdates_time O ds c, send_packets_time O c, (disconnect_frame O c).1, rfl, ?_⟩
  · rw [update_time O c d]
    exact Nat.le_add_right _ _
  · rcases hx : O.r_receive_message c.reliable_connection ch with ⟨r, m⟩
    simp [RenetClient.receive_message, hx]

/-- Witness for C4 at the concrete instantiation, with the reliable clock
measured by the `TR.clock` field. -/
theorem logical_time_only_update_witness :
    (RenetClient.update testOps testClient 3).1.current_time = 3
    ∧ testClient.current_time ≤ (RenetClient.update testOps testClient 3).1.current_time
    ∧ TR.clock (RenetClient.update testOps testClient 3).1.reliable_connection = 3
    ∧ (runUpdates testOps [1, 2] testClient).1.current_time = 3
    ∧ (RenetClient.send_packets testOps testClient).1.current_time = 0
    ∧ (RenetClient.disconnect testOps testClient).current_time = 0
    ∧ (RenetClient.send_message testOps testClient 0 [5]).current_time = 0
    ∧ (RenetClient.receive_message testOps testClient 0).1.current_time = 0 :=
  logical_time_only_update testOps TR.clock (fun _ _ => rfl) (fun _ _ => rfl)
    (fun _ => rfl) testClient 3 [1, 2] 0 [5]

/-- A tick that starts with the handshake layer terminal fails fast with
that reason and performs no I/O. -/
theorem update_when_netcode_disconnected (O : Ops σn σr σm Tok Cfg CCfg Flt)
    (c : RenetClient σn σr σm) (d : Duration) (r : Nat)
    (h : O.n_disconnected c.netcode_client = some r) :
    RenetClient.update O c d =
      (tickStart O c d, .error (.Netcode (.Disconnected r))) := by
  unfold RenetClient.update
  have h2 : O.n_disconnected (tickStart O c d).netcode_client = some r := h
  simp only [h2]

/-- Once the handshake layer is terminal, every further tick keeps failing
with the same reason and never touches the socket. -/
theorem runUpdates_when_netcode_disconnected (O : Ops σn σr σm Tok Cfg CCfg Flt)
    (r : Nat) (ds : List Duration) :
    ∀ c : RenetClient σn σr σm, O.n_disconnected c.netcode_client = some r →
      (runUpdates O ds c).1.socket = c.socket ∧
      (runUpdates O ds c).1.netcode_client = c.netcode_client ∧
      ∀ res ∈ (runUpdates O ds c).2, res = .error (.Netcode (.Disconnected r)) := by
  induction ds with
  | nil =>
    intro c h
    refine ⟨rfl, rfl, ?_⟩
    intro res hres
    simp [runUpdates] at hres
  | cons d ds ih =>
    intro c h
    have hu := update_when_netcode_disconnected O c d r h
    rcases hrun : runUpdates O ds (tickStart O c d) with ⟨c3, rs⟩
    have h2 : O.n_disconnected (tickStart O c d).netcode_client = some r := h
    obtain ⟨hs, hn, hres⟩ := ih (tickStart O c d) h2
    rw [hrun] at hs hn hres
    simp only [runUpdates, hu, hrun]
    refine ⟨hs, hn, ?_⟩
    intro res hmem
    simp only [List.mem_cons] at hmem
    rcases hmem with h1 | h1
    · exact h1
    · exact hres res h1

/-- A tick that starts with only the reliable transport terminal notifies
the peer via `disconnect` and fails with the reliable transport's reason. -/
theorem update_when_reliable_disconnected (O : Ops σn σr σm Tok Cfg CCfg Flt)
    (c : RenetClient σn σr σm) (d : Duration) (r : Nat)
    (hn : O.n_disconnected c.netcode_client = none)
    (hr : O.r_disconnected (O.r_advance_time c.reliable_connection d) = some r) :
    RenetClient.update O c d =
      (RenetClient.disconnect O (tickStart O c d),
        .error (.Rechannel (.ClientDisconnected r))) := by
  unfold RenetClient.update
  have hn2 : O.n_disconnected (tickStart O c d).netcode_client = none := hn
  have hr2 : O.r_disconnected (tickStart O c d).reliable_connection = some r := hr
  simp only [hn2, hr2]

/-- C1 (amended): when the handshake layer already reports a terminal
reason at the start of `update`, the tick performs no socket I/O and fails
with that reason, and every subsequent `update` call likewise performs no
socket I/O and returns the same terminal failure; when instead only the
reliable transport reports a terminal reason, the tick performs no socket
receive but attempts at most one best-effort disconnect notification send
before failing with the reliable transport's reason. -/
theorem update_terminal_start_behavior (O : Ops σn σr σm Tok Cfg CCfg Flt)
    (c : RenetClient σn σr σm) (d : Duration) (r : Nat) (ds : List Duration) :
    (O.n_disconnected c.netcode_client = some r →
      RenetClient.update O c d = (tickStart O c d, .error (.Netcode (.Disconnected r)))
      ∧ (RenetClient.update O c d).1.socket = c.socket
      ∧ (runUpdates O ds (RenetClient.update O c d).1).1.socket = c.socket
      ∧ ∀ res ∈ (runUpdates O ds (RenetClient.update O c d).1).2,
          res = .error (.Netcode (.Disconnected r)))
    ∧ (O.n_disconnected c.netcode_client = none →
       O.r_disconnected (O.r_advance_time c.reliable_connection d) = some r →
        (RenetClient.update O c d).2 = .error (.Rechannel (.ClientDisconnected r))
        ∧ (RenetClient.update O c d).1.socket.incoming = c.socket.incoming
        ∧ (RenetClient.update O c d).1.socket.sent.length ≤
            c.socket.sent.length + 1) := by
  constructor
  · intro h
    have hu := update_when_netcode_disconnected O c d r h
    have h2 : O.n_disconnected (RenetClient.update O c d).1.netcode_client = some r := by
      rw [hu]
      exact h
    obtain ⟨hs, hn, hres⟩ := runUpdates_when_netcode_disconnected O r ds _ h2
    have hsock : (RenetClient.update O c d).1.socket = c.socket := by
      rw [hu]
      rfl
    exact ⟨hu, hsock, hs.trans hsock, hres⟩
  · intro hn hr
    have hu := update_when_reliable_disconnected O c d r hn hr
    rw [hu]
    exact ⟨rfl, (disconnect_frame O _).2.2.1, (disconnect_frame O _).2.2.2⟩

/-- A session whose reliable transport is already terminal at the start of
the tick, with the handshake layer able to produce a disconnect payload. -/
def c1cex : RenetClient TN TR TMet where
  current_time := 0
  netcode_client := { disc := .ok (0, [1, 2]) }
  socket := {}
  reliable_connection := { reason := some 3 }
  client_packet_info := {}

/-- Counterexample to C1 as stated: a session that already reports a
terminal disconnect reason at the start of `update` for which the tick
nevertheless performs a socket send (the disconnect notification). -/
theorem update_terminal_send_cex :
    RenetClient.disconnected testOps c1cex = some (.fromRechannel 3)
    ∧ c1cex.socket.sent = []
    ∧ (RenetClient.update testOps c1cex 5).1.socket.sent = [([1, 2], 0)] :=
  ⟨rfl, rfl, rfl⟩

/-- A session whose handshake layer is already terminal. -/
def c1wa : RenetClient TN TR TMet where
  current_time := 0
  netcode_client := { reason := some 9 }
  socket := {}
  reliable_connection := {}
  client_packet_info := {}

/-- Witness for C1 (amended) at concrete sessions: one with the handshake
layer terminal, one with only the reliable transport terminal. -/
theorem update_terminal_start_behavior_witness :
    (RenetClient.update testOps c1wa 2 =
        (tickStart testOps c1wa 2, .error (.Netcode (.Disconnected 9)))
      ∧ ∀ res ∈ (runUpdates testOps [3] (RenetClient.update testOps c1wa 2).1).2,
          res = .error (.Netcode (.Disconnected 9)))
    ∧ ((RenetClient.update testOps c1cex 5).2 =
          .error (.Rechannel (.ClientDisconnected 3))
        ∧ (RenetClient.update testOps c1cex 5).1.socket.sent.length ≤
            c1cex.socket.sent.length + 1) :=
  ⟨⟨((update_terminal_start_behavior testOps c1wa 2 9 [3]).1 rfl).1,
    ((update_terminal_start_behavior testOps c1wa 2 9 [3]).1 rfl).2.2.2⟩,
   ⟨((update_terminal_start_behavior testOps c1cex 5 3 []).2 rfl rfl).1,
    ((update_terminal_start_behavior testOps c1cex 5 3 []).2 rfl rfl).2.2⟩⟩

end Claims2

section Claims3

variable {σn σr σm Tok Cfg CCfg Flt : Type}

/-- A send whose outcome script has a failure at the head returns that
error. -/
theorem sendTo_snd_error (s : Socket) (p : Bytes) (a : SocketAddr) (e : Nat)
    (h : s.sendErrs.head? = some (some e)) : (s.sendTo p a).2 = .error e := by
  unfold Socket.sendTo
  rw [h]

/-- C2 (amended): when the handshake layer's periodic maintenance produces
an outbound keepalive packet for this tick and the socket send of that
packet fails, the failure is escalated as an I/O error result of `update`
(with the sent-packet metrics sample already recorded); it is not logged
and swallowed.  Only disconnect-packet sends are swallowed. -/
theorem update_keepalive_send_failure_escalates (O : Ops σn σr σm Tok Cfg CCfg Flt)
    (c c1 : RenetClient σn σr σm) (d : Duration) (rest : List RecvEvent)
    (r2 : σr) (n2 : σn) (packet : Bytes) (addr : SocketAddr) (e : Nat)
    (hn : O.n_disconnected c.netcode_client = none)
    (hr : O.r_disconnected (O.r_advance_time c.reliable_connection d) = none)
    (hrl : recvLoopAux O (tickStart O c d).socket.incoming (tickStart O c d) =
      (c1, rest, .ok ()))
    (hru : O.r_update c1.reliable_connection = (r2, .ok ()))
    (hnu : O.n_update c1.netcode_client d = (n2, some (packet, addr)))
    (hsend : c1.socket.sendErrs.head? = some (some e)) :
    (RenetClient.update O c d).2 = .error (.ioErr e)
    ∧ (RenetClient.update O c d).1.client_packet_info =
        O.m_add_packet_sent c1.client_packet_info ⟨c.current_time + d, packet.length⟩ := by
  have hn2 : O.n_disconnected (tickStart O c d).netcode_client = none := hn
  have hr2 : O.r_disconnected (tickStart O c d).reliable_connection = none := hr
  have htime : c1.current_time = c.current_time + d := by
    have h := (recvLoopAux_time_socket O (tickStart O c d).socket.incoming
      (tickStart O c d)).1
    rw [hrl] at h
    exact h
  have hsnd : (Socket.sendTo { c1.socket with incoming := rest } packet addr).2 =
      .error e := sendTo_snd_error _ packet addr e hsend
  unfold RenetClient.update
  simp only [hn2, hr2, hrl, hru, hnu, send_to_eq, hsnd]
  exact ⟨by trivial, by rw [htime]⟩

/-- A session about to send a keepalive over a socket whose next send
fails. -/
def c2cex : RenetClient TN TR TMet where
  current_time := 0
  netcode_client := { upd := some ([9, 9], 4) }
  socket := { sendErrs := [some 13] }
  reliable_connection := {}
  client_packet_info := {}

/-- Counterexample to C2 as stated: a tick whose handshake maintenance
produces a keepalive packet and whose socket send of that packet fails;
`update` escalates the failure as an I/O error result instead of
swallowing it. -/
theorem keepalive_send_failure_swallowed_cex :
    (testOps.n_update (tickStart testOps c2cex 7).netcode_client 7).2 = some ([9, 9], 4)
    ∧ (RenetClient.update testOps c2cex 7).2 = .error (.ioErr 13)
    ∧ (RenetClient.update testOps c2cex 7).1.socket.sent = [([9, 9], 4)] :=
  ⟨rfl, rfl, rfl⟩

/-- Witness for C2 (amended) at the concrete session. -/
theorem update_keepalive_send_failure_escalates_witness :
    (RenetClient.update testOps c2cex 7).2 = .error (.ioErr 13)
    ∧ (RenetClient.update testOps c2cex 7).1.client_packet_info =
        testOps.m_add_packet_sent (tickStart testOps c2cex 7).client_packet_info
          ⟨c2cex.current_time + 7, [9, 9].length⟩ :=
  update_keepalive_send_failure_escalates testOps c2cex (tickStart testOps c2cex 7) 7 []
    (tickStart testOps c2cex 7).reliable_connection
    (tickStart testOps c2cex 7).netcode_client [9, 9] 4 13 rfl rfl rfl rfl rfl rfl

end Claims3

section Claims4

variable {σn σr σm Tok Cfg CCfg Flt : Type}

/-- C7: construction fails exactly when setting the socket non-blocking
fails or, in `Unsecure` mode, token synthesis fails; on success a fully
initialized session is returned (and no partial session otherwise, the
result being a single `Except` value). -/
theorem new_failure_conditions (O : Ops σn σr σm Tok Cfg CCfg Flt)
    (t : Duration) (sock : Socket) (cfg : Cfg) (auth : ClientAuthentication Tok) :
    ((RenetClient.new O t sock cfg auth).isOk = true ↔
      (sock.setNonblockErr = none ∧
        match auth with
        | .Secure _ => True
        | .Unsecure pid cid a ud =>
          (O.token_generate t pid 300 cid 15 [a] ud
            (List.replicate NETCODE_KEY_BYTES 0)).isOk = true))
    ∧ (∀ cl, RenetClient.new O t sock cfg auth = .ok cl →
        cl.current_time = t
        ∧ cl.socket = { sock with nonblocking := true }
        ∧ cl.reliable_connection = O.remote_new t (O.to_connection_config cfg)
        ∧ cl.client_packet_info = O.m_new (O.cfg_smoothing cfg)) := by
  cases hs : sock.setNonblockErr with
  | some e =>
    constructor
    · simp [RenetClient.new, hs, Except.isOk, Except.toBool]
    · intro cl hcl
      simp [RenetClient.new, hs] at hcl
  | none =>
    cases auth with
    | Secure tok =>
      constructor
      · simp [RenetClient.new, hs, Except.isOk, Except.toBool]
      · intro cl hcl
        simp only [RenetClient.new, hs] at hcl
        injection hcl with h
        subst h
        exact ⟨rfl, rfl, rfl, rfl⟩
    | Unsecure pid cid a ud =>
      cases hg : O.token_generate t pid 300 cid 15 [a] ud
          (List.replicate NETCODE_KEY_BYTES 0) with
      | error e =>
        constructor
        · simp [RenetClient.new, hs, hg, Except.isOk, Except.toBool]
        · intro cl hcl
          simp [RenetClient.new, hs, hg] at hcl
      | ok tk =>
        constructor
        · simp [RenetClient.new, hs, hg, Except.isOk, Except.toBool]
        · intro cl hcl
          simp only [RenetClient.new, hs, hg] at hcl
          injection hcl with h
          subst h
          exact ⟨rfl, rfl, rfl, rfl⟩

/-- The session produced by a successful concrete unsecure construction. -/
def c7client : RenetClient TN TR TMet where
  current_time := 0
  netcode_client := { cid := 1002 }
  socket := { nonblocking := true }
  reliable_connection := { clock := 0 }
  client_packet_info := {}

/-- Witness for C7: a concrete successful construction, with the fields of
the returned session checked. -/
theorem new_failure_conditions_witness :
    (RenetClient.new testOps 0 {} 0 (.Unsecure 1 2 9 none)).isOk = true
    ∧ c7client.current_time = 0
    ∧ c7client.socket = { ({} : Socket) with nonblocking := true }
    ∧ c7client.reliable_connection = testOps.remote_new 0 (testOps.to_connection_config 0)
    ∧ c7client.client_packet_info = testOps.m_new (testOps.cfg_smoothing 0) :=
  ⟨(new_failure_conditions testOps 0 {} 0 (.Unsecure 1 2 9 none)).1.mpr ⟨rfl, rfl⟩,
   (new_failure_conditions testOps 0 {} 0 (.Unsecure 1 2 9 none)).2 c7client rfl⟩

/-- C8: in `Unsecure` mode the handshake token is synthesized from the
given protocol id, client id, single server address and optional user data
with the fixed expiry 300, timeout 15 and the all-zero private key, and the
handshake layer is built from that token; in `Secure` mode the pre-issued
token is used unchanged. -/
theorem unsecure_token_synthesis (O : Ops σn σr σm Tok Cfg CCfg Flt)
    (t : Duration) (sock : Socket) (cfg : Cfg) (pid cid : Nat) (a : SocketAddr)
    (ud : Option Bytes) (tok tk : Tok)
    (hs : sock.setNonblockErr = none) :
    (O.token_generate t pid 300 cid 15 [a] ud (List.replicate NETCODE_KEY_BYTES 0) =
        .ok tk →
      ∃ cl, RenetClient.new O t sock cfg (.Unsecure pid cid a ud) = .ok cl
        ∧ cl.netcode_client = O.netcode_new t tk)
    ∧ (∃ cl, RenetClient.new O t sock cfg (.Secure tok) = .ok cl
        ∧ cl.netcode_client = O.netcode_new t tok) := by
  constructor
  · intro hg
    refine ⟨RenetClient.mk t (O.netcode_new t tk) { sock with nonblocking := true }
      (O.remote_new t (O.to_connection_config cfg)) (O.m_new (O.cfg_smoothing cfg)),
      ?_, rfl⟩
    unfold RenetClient.new
    simp [hs, hg]
  · refine ⟨RenetClient.mk t (O.netcode_new t tok) { sock with nonblocking := true }
      (O.remote_new t (O.to_connection_config cfg)) (O.m_new (O.cfg_smoothing cfg)),
      ?_, rfl⟩
    unfold RenetClient.new
    simp [hs]

/-- Witness for C8: the concrete unsecure construction uses the synthesized
token, and the secure construction uses the pre-issued token unchanged. -/
theorem unsecure_token_synthesis_witness :
    (∃ cl, RenetClient.new testOps 0 {} 0 (.Unsecure 1 2 9 none) = .ok cl
      ∧ cl.netcode_client = testOps.netcode_new 0 1002)
    ∧ (∃ cl, RenetClient.new testOps 0 {} 0 (.Secure 5) = .ok cl
      ∧ cl.netcode_client = testOps.netcode_new 0 5) :=
  ⟨(unsecure_token_synthesis testOps 0 {} 0 1 2 9 none 5 1002 rfl).1 rfl,
   (unsecure_token_synthesis testOps 0 {} 0 1 2 9 none 5 1002 rfl).2⟩

end Claims4
